import Mathlib

/-!
Verification of the localized static-document selector of the blog
repository: the `Legal` component (src/components/Legal.tsx) and the
legal-notice page variants that instantiate it.

The data model follows contentlayer's generated `LegalNotice` records as
used by the component: each document carries a `slug` (its language code)
and a `body` whose `code` field is the compiled content string.
-/

/-- The compiled MDX body of a legal notice; the component reads `body.code`. -/
structure Body where
  code : String
deriving Repr, DecidableEq

/-- A localized legal document: `slug` is the language code ("de" / "en"). -/
structure LegalNotice where
  slug : String
  body : Body
deriving Repr, DecidableEq

/-- The `legalTexts` prop: an ordered collection of localized documents. -/
abbrev DocumentSet := List LegalNotice

/-- The two supported language codes, from `type LegalLanguages = 'de' | 'en'`. -/
inductive LegalLanguages where
  | de : LegalLanguages
  | en : LegalLanguages
deriving Repr, DecidableEq

/-- The runtime string value of a `LegalLanguages` literal. -/
def LegalLanguages.code : LegalLanguages → String
  | .de => "de"
  | .en => "en"

/-- The initial selection state: `useState<LegalLanguages>('en')`. -/
def initialLanguage : String := "en"

/-- The resolution step `legalTexts.find((text) => text.slug === language)`. -/
def legalFind (legalTexts : DocumentSet) (language : String) : Option LegalNotice :=
  legalTexts.find? (fun text => text.slug == language)

/-- JavaScript `x?.body.code || ''` applied to an optional string: `undefined`
and the empty string are falsy, so both collapse to the empty string. -/
def jsOrEmpty : Option String → String
  | some v => if v == "" then "" else v
  | none => ""

/-- The string handed to `MDXLayoutRenderer` as its `code` prop:
`legalText?.body.code || ''`. -/
def renderedBodyCode (legalTexts : DocumentSet) (language : String) : String :=
  jsOrEmpty ((legalFind legalTexts language).map (fun text => text.body.code))

/-- `conditionalButtonStyles`: the active-language marking,
`language === lang ? 'text-primary-500' : ''`. -/
def conditionalButtonStyles (language : String) (lang : LegalLanguages) : String :=
  if language == lang.code then "text-primary-500" else ""

/-- One rendered language control (a `<button>`): its language, its label,
its fixed class string, and the conditional marking class. -/
structure LanguageButton where
  lang : LegalLanguages
  label : String
  baseClass : String
  conditionalClass : String
deriving Repr, DecidableEq

/-- The observable output of one render of `Legal`: the language controls
and the string passed to the content renderer. -/
structure RenderOutput where
  buttons : List LanguageButton
  bodyCode : String
deriving Repr, DecidableEq

/-- The render of `Legal` as a function of the props and the selection
state: the DE and EN buttons (with `conditionalButtonStyles` applied) and
the `code` prop handed to `MDXLayoutRenderer`. -/
def renderLegal (legalTexts : DocumentSet) (language : String) : RenderOutput :=
  { buttons :=
      [ { lang := LegalLanguages.de
          label := "DE"
          baseClass := "mr-4 text-xl transition-all hover:text-primary-500"
          conditionalClass := conditionalButtonStyles language LegalLanguages.de },
        { lang := LegalLanguages.en
          label := "EN"
          baseClass := "text-xl transition-all hover:text-primary-500"
          conditionalClass := conditionalButtonStyles language LegalLanguages.en } ]
    bodyCode := renderedBodyCode legalTexts language }

/-- One mounted page instance of `Legal`: its props and its local state. -/
structure PageInstance where
  legalTexts : DocumentSet
  language : String
deriving Repr, DecidableEq

/-- A freshly mounted instance: state initialized to the default language. -/
def PageInstance.init (legalTexts : DocumentSet) : PageInstance :=
  { legalTexts := legalTexts, language := initialLanguage }

/-- A click on one of the two language buttons:
`onClick={() => setLanguage('de')}` / `onClick={() => setLanguage('en')}`.
The state setter replaces the state wholesale. -/
def PageInstance.click (inst : PageInstance) (event : LegalLanguages) : PageInstance :=
  { inst with language := event.code }

/-- Rendering an instance with its current props and state. -/
def PageInstance.render (inst : PageInstance) : RenderOutput :=
  renderLegal inst.legalTexts inst.language

/-- Two independent mounted page instances; they share nothing. -/
structure World where
  a : PageInstance
  b : PageInstance

/-- A click delivered to the first instance only. -/
def World.clickA (w : World) (event : LegalLanguages) : World :=
  { w with a := w.a.click event }

/-- A click delivered to the second instance only. -/
def World.clickB (w : World) (event : LegalLanguages) : World :=
  { w with b := w.b.click event }

/-- src/app/legal-notice/page.tsx: the page passes `allLegalNotices`
directly to `Legal`. -/
def pageLegalTexts (allLegalNotices : DocumentSet) : DocumentSet :=
  allLegalNotices

/-- The other page variant: it computes `legalNoticeDE` and `legalNoticeEN`
by `find` on the slug, never uses them, and passes `allLegalNotices`
unfiltered to `Legal`. -/
def variantLegalTexts (allLegalNotices : DocumentSet) : DocumentSet :=
  let legalNoticeDE := allLegalNotices.find? (fun p => p.slug == "de")
  let legalNoticeEN := allLegalNotices.find? (fun p => p.slug == "en")
  let _ := legalNoticeDE
  let _ := legalNoticeEN
  allLegalNotices

/-- The `useState` setter as a state transition: `setLanguage(code)` replaces
the selection state wholesale with its argument. -/
def setLanguage (currentLanguage : String) (code : String) : String :=
  code

/-- Sample documents for witnesses. -/
def dEn : LegalNotice := { slug := "en", body := { code := "Hello" } }

/-- Sample German document for witnesses. -/
def dDe : LegalNotice := { slug := "de", body := { code := "Hallo" } }

/-- Sample document set for witnesses. -/
def sampleSet : DocumentSet := [dEn, dDe]

/-- Sample document with an empty compiled body, for witnesses. -/
def dEmpty : LegalNotice := { slug := "en", body := { code := "" } }

/-! ## Helper lemmas about the resolution step -/

/-- Resolution over a cons whose head matches returns the head. -/
theorem legalFind_cons_pos (x : LegalNotice) (xs : DocumentSet) (c : String)
    (hx : x.slug = c) : legalFind (x :: xs) c = some x := by
  simp [legalFind, List.find?_cons_of_pos, hx]

/-- Resolution over a cons whose head does not match skips the head. -/
theorem legalFind_cons_neg (x : LegalNotice) (xs : DocumentSet) (c : String)
    (hx : x.slug ≠ c) : legalFind (x :: xs) c = legalFind xs c := by
  simp [legalFind, List.find?_cons_of_neg, hx]

/-- Resolution returns `none` exactly when no document's slug matches. -/
theorem legalFind_none_iff (legalTexts : DocumentSet) (c : String) :
    legalFind legalTexts c = none ↔ ∀ t ∈ legalTexts, t.slug ≠ c := by
  induction legalTexts with
  | nil => simp [legalFind]
  | cons x xs ih =>
    by_cases hx : x.slug = c
    · rw [legalFind_cons_pos x xs c hx]
      constructor
      · intro h
        exact Option.noConfusion h
      · intro h
        exact absurd hx (h x (List.mem_cons_self x xs))
    · rw [legalFind_cons_neg x xs c hx, ih]
      constructor
      · intro h t ht
        rcases List.mem_cons.mp ht with h1 | h1
        · rw [h1]
          exact hx
        · exact h t h1
      · intro h t ht
        exact h t (List.mem_cons_of_mem x ht)

/-- A successful resolution returns a matching document, and every document
strictly before it in the set fails to match. -/
theorem legalFind_some_split (legalTexts : DocumentSet) (c : String) (t : LegalNotice)
    (h : legalFind legalTexts c = some t) :
    t.slug = c ∧ ∃ pre post, legalTexts = pre ++ t :: post ∧ ∀ u ∈ pre, u.slug ≠ c := by
  induction legalTexts with
  | nil => simp [legalFind] at h
  | cons x xs ih =>
    by_cases hx : x.slug = c
    · rw [legalFind_cons_pos x xs c hx] at h
      injection h with h'
      subst h'
      exact ⟨hx, [], xs, rfl, by simp⟩
    · rw [legalFind_cons_neg x xs c hx] at h
      obtain ⟨hslug, pre, post, hsplit, hpre⟩ := ih h
      refine ⟨hslug, x :: pre, post, by rw [hsplit]; rfl, ?_⟩
      intro u hu
      rcases List.mem_cons.mp hu with h1 | h1
      · rw [h1]
        exact hx
      · exact hpre u h1

/-- Folding any sequence of language clicks over an instance never changes
its document collection. -/
theorem foldl_click_legalTexts (inst : PageInstance) (events : List LegalLanguages) :
    (events.foldl PageInstance.click inst).legalTexts = inst.legalTexts := by
  induction events generalizing inst with
  | nil => rfl
  | cons e es ih => exact (ih (inst.click e)).trans rfl

/-- Folding clicks preserves the invariant that the selection state is
"de" or "en". -/
theorem foldl_click_language (inst : PageInstance) (events : List LegalLanguages)
    (h : inst.language = "de" ∨ inst.language = "en") :
    (events.foldl PageInstance.click inst).language = "de"
      ∨ (events.foldl PageInstance.click inst).language = "en" := by
  induction events generalizing inst with
  | nil => exact h
  | cons e es ih =>
    apply ih
    cases e
    · exact Or.inl rfl
    · exact Or.inr rfl

/-! ## Claim theorems -/

/-- C1: for every document set and every current language, the
`legalTexts.find` lookup returns the first entry whose slug equals the
current language (every entry before it fails to match), and returns
`none` exactly when no entry matches. -/
theorem legalFind_returns_first_match (legalTexts : DocumentSet) (currentLanguage : String) :
    (∀ t, legalFind legalTexts currentLanguage = some t →
      t.slug = currentLanguage ∧
      ∃ pre post, legalTexts = pre ++ t :: post ∧ ∀ u ∈ pre, u.slug ≠ currentLanguage)
    ∧ (legalFind legalTexts currentLanguage = none ↔
        ∀ t ∈ legalTexts, t.slug ≠ currentLanguage) :=
  ⟨fun t ht => legalFind_some_split legalTexts currentLanguage t ht,
   legalFind_none_iff legalTexts currentLanguage⟩

/-- Witness for C1 at the sample set and language "en". -/
theorem legalFind_returns_first_match_witness :
    dEn.slug = "en" ∧
    ∃ pre post, sampleSet = pre ++ dEn :: post ∧ ∀ u ∈ pre, u.slug ≠ "en" :=
  (legalFind_returns_first_match sampleSet "en").1 dEn rfl

/-- C2: selecting a language code absent from the document set makes
resolution return `none`, and the content renderer is handed the empty
string (no exception is modelled anywhere: every operation is total). -/
theorem absent_language_resolves_none (legalTexts : DocumentSet) (s c : String)
    (h : ∀ t ∈ legalTexts, t.slug ≠ c) :
    legalFind legalTexts (setLanguage s c) = none
    ∧ (renderLegal legalTexts (setLanguage s c)).bodyCode = "" := by
  have hn : legalFind legalTexts c = none := (legalFind_none_iff legalTexts c).mpr h
  refine ⟨hn, ?_⟩
  simp [renderLegal, renderedBodyCode, setLanguage, hn, jsOrEmpty]

/-- Witness for C2: "fr" is absent from the sample set. -/
theorem absent_language_resolves_none_witness :
    legalFind sampleSet (setLanguage initialLanguage "fr") = none
    ∧ (renderLegal sampleSet (setLanguage initialLanguage "fr")).bodyCode = "" :=
  absent_language_resolves_none sampleSet initialLanguage "fr" (by decide)

/-- C3: if the document set contains the (unique) document whose slug is
"en", then resolution in the initial state, which is initialized to "en",
returns exactly that document. -/
theorem default_state_resolves_en_document (legalTexts : DocumentSet) (t : LegalNotice)
    (ht : t ∈ legalTexts) (hslug : t.slug = "en")
    (huniq : ∀ u ∈ legalTexts, u.slug = "en" → u = t) :
    legalFind legalTexts initialLanguage = some t := by
  cases hfind : legalFind legalTexts initialLanguage with
  | none =>
    exact absurd hslug ((legalFind_none_iff legalTexts initialLanguage).mp hfind t ht)
  | some u =>
    obtain ⟨huslug, pre, post, hsplit, -⟩ :=
      legalFind_some_split legalTexts initialLanguage u hfind
    have humem : u ∈ legalTexts := by
      rw [hsplit]
      simp
    rw [huniq u humem huslug]

/-- Witness for C3 at the sample set. -/
theorem default_state_resolves_en_document_witness :
    legalFind sampleSet initialLanguage = some dEn :=
  default_state_resolves_en_document sampleSet dEn (by decide) rfl (by decide)

/-- C4: from the default state, clicking DE and then EN restores the
original render, and in particular the originally resolved document. -/
theorem de_en_round_trip_restores_render (legalTexts : DocumentSet) :
    (((PageInstance.init legalTexts).click LegalLanguages.de).click
        LegalLanguages.en).render
      = (PageInstance.init legalTexts).render
    ∧ legalFind legalTexts
        ((((PageInstance.init legalTexts).click LegalLanguages.de).click
          LegalLanguages.en).language)
      = legalFind legalTexts initialLanguage :=
  ⟨rfl, rfl⟩

/-- C5: the render is a pure function of the document set and the current
language, and a click delivered to one page instance never changes what an
independent instance renders. -/
theorem render_pure_function_of_inputs :
    (∀ i1 i2 : PageInstance, i1.legalTexts = i2.legalTexts →
      i1.language = i2.language → i1.render = i2.render)
    ∧ (∀ w : World, ∀ e : LegalLanguages,
        ((w.clickB e).a).render = w.a.render ∧ ((w.clickA e).b).render = w.b.render) := by
  constructor
  · intro i1 i2 ht hl
    simp [PageInstance.render, ht, hl]
  · intro w e
    exact ⟨rfl, rfl⟩

/-- Witness for C5: two distinct instances with equal fields render equally. -/
theorem render_pure_function_of_inputs_witness :
    (PageInstance.init sampleSet).render
      = (PageInstance.mk sampleSet "en").render :=
  render_pure_function_of_inputs.1 (PageInstance.init sampleSet)
    (PageInstance.mk sampleSet "en") rfl rfl

/-- C6: the render produces exactly one control per supported language code
(DE then EN), and a control carries the active marking class exactly when
its language is the currently selected one. -/
theorem one_button_per_language_active_marked (legalTexts : DocumentSet)
    (language : LegalLanguages) :
    ((renderLegal legalTexts language.code).buttons.map (fun b => b.lang))
        = [LegalLanguages.de, LegalLanguages.en]
    ∧ ∀ b ∈ (renderLegal legalTexts language.code).buttons,
        (b.conditionalClass = "text-primary-500" ↔ b.lang = language) := by
  refine ⟨rfl, ?_⟩
  intro b hb
  simp only [renderLegal, List.mem_cons, List.not_mem_nil, or_false] at hb
  rcases hb with hb | hb <;> rw [hb] <;> cases language <;>
    simp [conditionalButtonStyles, LegalLanguages.code]

/-- Witness for C6: in the DE state, the DE control carries the marking. -/
theorem one_button_per_language_active_marked_witness :
    (({ lang := LegalLanguages.de, label := "DE",
        baseClass := "mr-4 text-xl transition-all hover:text-primary-500",
        conditionalClass := "text-primary-500" } : LanguageButton).conditionalClass
          = "text-primary-500"
      ↔ ({ lang := LegalLanguages.de, label := "DE",
            baseClass := "mr-4 text-xl transition-all hover:text-primary-500",
            conditionalClass := "text-primary-500" } : LanguageButton).lang
          = LegalLanguages.de) :=
  (one_button_per_language_active_marked sampleSet LegalLanguages.de).2 _ (by decide)

/-- C7: no sequence of language clicks ever changes the supplied document
set: the `legalTexts` field (including every document in it) is unchanged. -/
theorem clicks_never_mutate_documentSet (legalTexts : DocumentSet)
    (events : List LegalLanguages) :
    (events.foldl PageInstance.click (PageInstance.init legalTexts)).legalTexts
      = legalTexts :=
  foldl_click_legalTexts (PageInstance.init legalTexts) events

/-- C8: the page variant with the unused `legalNoticeDE` / `legalNoticeEN`
lookups passes the very same collection to `Legal` as the plain variant,
so both render identically for every language state. -/
theorem page_variants_equivalent (allLegalNotices : DocumentSet) :
    variantLegalTexts allLegalNotices = pageLegalTexts allLegalNotices
    ∧ ∀ language : String,
        renderLegal (variantLegalTexts allLegalNotices) language
          = renderLegal (pageLegalTexts allLegalNotices) language :=
  ⟨rfl, fun _ => rfl⟩

/-- C9: starting from the initial state "en", after any sequence of clicks
on the two language controls the selection state is "de" or "en". -/
theorem language_state_always_de_or_en (legalTexts : DocumentSet)
    (events : List LegalLanguages) :
    (events.foldl PageInstance.click (PageInstance.init legalTexts)).language = "de"
      ∨ (events.foldl PageInstance.click (PageInstance.init legalTexts)).language = "en" :=
  foldl_click_language (PageInstance.init legalTexts) events (Or.inr rfl)

/-- C10: with the empty document set resolution returns `none` and the
renderer receives exactly the empty string, for every selection state; and
whenever the resolved document's body code is itself empty the renderer
also receives the empty string. -/
theorem empty_set_renders_empty_string (language : String) :
    legalFind ([] : DocumentSet) language = none
    ∧ (renderLegal ([] : DocumentSet) language).bodyCode = ""
    ∧ ∀ legalTexts t, legalFind legalTexts language = some t → t.body.code = "" →
        (renderLegal legalTexts language).bodyCode = "" := by
  refine ⟨rfl, rfl, ?_⟩
  intro legalTexts t hfind hcode
  simp [renderLegal, renderedBodyCode, hfind, jsOrEmpty, hcode]

/-- Witness for C10: a document with an empty body renders as the empty
string. -/
theorem empty_set_renders_empty_string_witness :
    (renderLegal [dEmpty] "en").bodyCode = "" :=
  (empty_set_renders_empty_string "en").2.2 [dEmpty] dEmpty rfl rfl
